import Mathlib

/-!
Verification development for the signals session/reconnection manager
(`src/utils/signals/useSignalsWorker.ts`).

The hook is shallowly embedded as executable Lean functions:
- the worker `port.onmessage` handler (lines 54-70) becomes `onMessageState`
  (status component) and `msgReady` (readiness component);
- the status-change effect (lines 73-89) becomes `statusCalls`;
- the init effect (lines 128-131) becomes `initEffectPost`;
- the reconnect-poll effect (lines 134-148) becomes the timer portion of
  `hookStep`;
- the liveness probe (`handleVisibilityChange`, lines 92-106) becomes a
  separate timed model `probeStep` over `ProbeSys`;
- the facade (`send`/`on`/`off`, lines 151-163) becomes `sendMsg`,
  `facadeOn`, `facadeOff`.

React effect semantics are embedded explicitly: an effect re-runs exactly
when its dependency tuple changes (values compared), and its cleanup runs
first.  `setState` always triggers the status effect because the handler
always passes a freshly allocated object.
-/

/-- The `SignalStatus` union type (line 6 of the source).  The source type has
exactly these five values; "unset" exists only as `none` at the
`Option SignalState` level, mirroring `useState<SignalState>()` starting
`undefined`. -/
inductive SignalStatus where
  | connected
  | closed
  | error
  | reconnected
  | reconnecting
deriving DecidableEq

/-- `SignalState` (lines 8-11): a status plus an optional human-readable
message. -/
structure SignalState where
  status : SignalStatus
  message : Option String := none
deriving DecidableEq

/-- Inbound messages from the shared worker (`WorkerOutgoingMessage` as
consumed by the handler at lines 54-70).  `event:received` payloads are
opaque to the hook, modelled as `String`. -/
inductive WorkerMsg where
  | workerReady
  | connectionReady
  | connectionClosed (message : Option String)
  | connectionError (message : Option String)
  | connectionReconnected
  | connectionReconnecting
  | eventReceived (target : String) (payload : String)
  | pong
deriving DecidableEq

/-- Outbound messages posted to the worker port.  `args` of `send` is opaque,
modelled as `String`. -/
inductive OutMsg where
  | connInit (token : String)
  | send (target : String) (args : String)
  | eventRegister (target : String)
  | ping
deriving DecidableEq

/-- Callback invocations observable by the embedding application
(the `options` callbacks of `useSignalsWorker`). -/
inductive Cb where
  | statusChange (s : SignalState)
  | connected
  | reconnected
  | reconnecting
  | closed (m : Option String)
  | error (m : Option String)
deriving DecidableEq

/-- Status component of the `onmessage` handler (lines 55-67).
`worker:ready`, `event:received` and `pong` do not touch the status. -/
def onMessageState : Option SignalState → WorkerMsg → Option SignalState
  | prev, .connectionReady =>
      match prev with
      | some ⟨.closed, _⟩ => some ⟨.reconnected, none⟩
      | some ⟨.error, _⟩ => some ⟨.reconnected, none⟩
      | _ => some ⟨.connected, none⟩
  | _, .connectionClosed m => some ⟨.closed, m⟩
  | _, .connectionError m => some ⟨.error, m⟩
  | _, .connectionReconnected => some ⟨.reconnected, none⟩
  | _, .connectionReconnecting => some ⟨.reconnecting, none⟩
  | prev, _ => prev

/-- Readiness component of the `onmessage` handler: only `worker:ready`
calls `setReady(true)` (line 55). -/
def msgReady (ready : Bool) : WorkerMsg → Bool
  | .workerReady => true
  | _ => ready

/-- Whether the handler calls `setState` for this message (it does for the
five `connection:*` messages, each with a freshly allocated object). -/
def msgSetsState : WorkerMsg → Bool
  | .connectionReady => true
  | .connectionClosed _ => true
  | .connectionError _ => true
  | .connectionReconnected => true
  | .connectionReconnecting => true
  | _ => false

/-- Modelled from the spec: the transition table of spec section 4.2 for
inbound transport events, written from the spec's bullet list.  Used only to
compare against `onMessageState`, which is transcribed from the source.
Events that are not status transitions in the table leave the status
unchanged. -/
def specStatusTable (prev : Option SignalState) : WorkerMsg → Option SignalState
  | .connectionReady =>
      if prev.map SignalState.status = some .closed
          ∨ prev.map SignalState.status = some .error then
        some { status := .reconnected }
      else
        some { status := .connected }
  | .connectionClosed m => some { status := .closed, message := m }
  | .connectionError m => some { status := .error, message := m }
  | .connectionReconnected => some { status := .reconnected }
  | .connectionReconnecting => some { status := .reconnecting }
  | _ => prev

/-- Modelled from the spec: the `EventEmitter` imported from
`src/utils/signals/utils` is not present under `src/`.  Spec section 3 models
registered listeners as "a mapping from an event-target name (string) to a
set of callback handles", added on `on` and removed on matching `off`; spec
section 4.4 says `off` "removes exactly that callback/target pair from the
local emitter".  Callback handles are modelled as `Nat` identities. -/
structure Emitter where
  listeners : List (String × Nat)
deriving DecidableEq

/-- Modelled from the spec: registering adds the callback/target pair. -/
def Emitter.on (e : Emitter) (target : String) (cb : Nat) : Emitter :=
  ⟨e.listeners ++ [(target, cb)]⟩

/-- Modelled from the spec: removing drops exactly that callback/target
pair. -/
def Emitter.off (e : Emitter) (target : String) (cb : Nat) : Emitter :=
  ⟨e.listeners.filter (fun x => decide (x ≠ (target, cb)))⟩

/-- Modelled from the spec: emitting an event invokes, in order, every
callback registered against the target. -/
def Emitter.emit (e : Emitter) (target : String) : List Nat :=
  (e.listeners.filter (fun x => decide (x.1 = target))).map Prod.snd

/-- Facade `send` (lines 152-154): posts `{type:'send', target, args}` via
optional chaining, so it posts nothing when the worker is absent. -/
def sendMsg (worker : Bool) (target : String) (args : String) : List OutMsg :=
  if worker then [OutMsg.send target args] else []

/-- Facade `on` (lines 156-159): posts `{type:'event:register', target}`
(optional chaining on the worker) and registers the callback locally. -/
def facadeOn (worker : Bool) (e : Emitter) (target : String) (cb : Nat) :
    Emitter × List OutMsg :=
  (e.on target cb, if worker then [OutMsg.eventRegister target] else [])

/-- Facade `off` (lines 161-163): removes the local registration only; no
message is posted to the transport. -/
def facadeOff (e : Emitter) (target : String) (cb : Nat) :
    Emitter × List OutMsg :=
  (e.off target cb, [])

/-- The `event:received` dispatch of the handler (line 68): emits the payload
to the local emitter's listeners for the carried target; all other messages
dispatch nothing to the emitter. -/
def dispatch (e : Emitter) : WorkerMsg → List Nat
  | .eventReceived target _ => e.emit target
  | _ => []

/-- The probe's ping post (line 95): optional chaining on the worker. -/
def pingPost (worker : Bool) : List OutMsg :=
  if worker then [OutMsg.ping] else []

/-- A live `setInterval` registration made by the reconnect-poll effect
(lines 139-142): it captures the access token of the render that created it
and the 30000 ms period. -/
structure TimerData where
  token : String
  intervalMs : Nat
deriving DecidableEq

/-- The hook's state.  `timers` is the list of live reconnect intervals
(newest first) and `timerRefLive` says whether the handle stored in
`timerRef.current` is still a live interval (when true it is the head of
`timers`).  `posted` and `calls` accumulate outbound port messages and
application callback invocations. -/
structure Hook where
  worker : Bool
  token : Option String
  ready : Bool
  st : Option SignalState
  timers : List TimerData
  timerRefLive : Bool
  posted : List OutMsg
  calls : List Cb
deriving DecidableEq

/-- Events driving the hook: worker creation (the init-worker effect,
lines 39-48), an access-token prop change, an inbound port message, the
liveness probe's then/catch handlers (lines 98-105), and a reconnect
interval tick. -/
inductive HookEv where
  | workerSet
  | setToken (tk : Option String)
  | workerMsg (m : WorkerMsg)
  | probeResolved
  | probeTimedOut
  | timerTick
deriving DecidableEq

/-- The `disconnected` predicate of line 135:
`!state?.status || state.status === 'closed' || state.status === 'error'`. -/
def discB : Option SignalState → Bool
  | none => true
  | some ⟨.closed, _⟩ => true
  | some ⟨.error, _⟩ => true
  | some _ => false

/-- Worker presence after the event (line 42 sets the worker once). -/
def coreWorker (s : Hook) : HookEv → Bool
  | .workerSet => true
  | _ => s.worker

/-- Access token after the event. -/
def coreToken (s : Hook) : HookEv → Option String
  | .setToken tk => tk
  | _ => s.token

/-- Readiness after the event: the init-worker effect calls
`setReady(false)` (line 41), `worker:ready` sets it true (line 55), the
probe's then-handler sets it true (line 100) and its catch-handler sets it
false (line 103). -/
def coreReady (s : Hook) : HookEv → Bool
  | .workerSet => false
  | .workerMsg m => msgReady s.ready m
  | .probeResolved => true
  | .probeTimedOut => false
  | _ => s.ready

/-- Status after the event: the handler's status component, and the probe's
catch-handler forcing `closed` with the fixed message (line 104). -/
def coreSt (s : Hook) : HookEv → Option SignalState
  | .workerMsg m => onMessageState s.st m
  | .probeTimedOut => some ⟨.closed, some "connection to shared worker lost"⟩
  | _ => s.st

/-- Whether the event called `setState` (always with a fresh object), which
re-runs the status-change effect (deps `[state]`, line 89). -/
def setsState : HookEv → Bool
  | .workerMsg m => msgSetsState m
  | .probeTimedOut => true
  | _ => false

/-- The status-change effect body (lines 73-89): bail out when no state yet;
otherwise invoke `onStatusChange` with the full status message, then exactly
the one status-specific callback, `closed`/`error` carrying the message. -/
def statusCalls : Option SignalState → List Cb
  | none => []
  | some s =>
      Cb.statusChange s ::
        (match s.status with
          | .connected => [Cb.connected]
          | .reconnected => [Cb.reconnected]
          | .reconnecting => [Cb.reconnecting]
          | .closed => [Cb.closed s.message]
          | .error => [Cb.error s.message])

/-- The init effect (lines 128-131) with deps `[worker, accessToken, ready]`:
when the dep tuple changed and `worker && ready && accessToken` holds, it
posts `{type:'connection:init', token}`. -/
def initEffectPost (wPre : Bool) (tPre : Option String) (rPre : Bool)
    (w : Bool) (t : Option String) (r : Bool) : List OutMsg :=
  if (w ≠ wPre ∨ t ≠ tPre ∨ r ≠ rPre) ∧ w = true ∧ r = true then
    match t with
    | some tk => [OutMsg.connInit tk]
    | none => []
  else []

/-- The reconnect-poll effect (lines 136-148) with deps
`[disconnected, accessToken, worker, ready]`.  When the dep tuple changed,
the previous run's cleanup first clears the interval held in
`timerRef.current` (lines 145-147); then the body either clears again (a
no-op, the handle is already dead) when not disconnected, or registers a new
30000 ms interval capturing the current token when disconnected with a
token, a worker and readiness (lines 137-143). -/
def recEffect (timers : List TimerData) (refLive : Bool)
    (disc' : Bool) (token' : Option String) (worker' ready' : Bool) :
    List TimerData × Bool :=
  let timersA := if refLive then timers.tail else timers
  if disc' = true ∧ worker' = true ∧ ready' = true then
    match token' with
    | some tk => (⟨tk, 30000⟩ :: timersA, true)
    | none => (timersA, false)
  else (timersA, false)

/-- One step of the hook: the primitive state update caused by the event,
the interval callback's own post when the event is a tick (line 141), then
the three effects in their declaration order (status effect, init effect,
reconnect effect), each gated on its dependency tuple having changed. -/
def hookStep (s : Hook) (e : HookEv) : Hook :=
  let worker' := coreWorker s e
  let token' := coreToken s e
  let ready' := coreReady s e
  let st' := coreSt s e
  let posted1 :=
    match e with
    | .timerTick =>
        s.posted ++
          (match s.timers with
            | td :: _ => [OutMsg.connInit td.token]
            | [] => [])
    | _ => s.posted
  let calls' := if setsState e then s.calls ++ statusCalls st' else s.calls
  let posted2 := posted1 ++ initEffectPost s.worker s.token s.ready worker' token' ready'
  let disc := discB s.st
  let disc' := discB st'
  let tp :=
    if disc' ≠ disc ∨ token' ≠ s.token ∨ worker' ≠ s.worker ∨ ready' ≠ s.ready then
      recEffect s.timers s.timerRefLive disc' token' worker' ready'
    else (s.timers, s.timerRefLive)
  { worker := worker', token := token', ready := ready', st := st',
    timers := tp.1, timerRefLive := tp.2, posted := posted2, calls := calls' }

/-- Which events are possible in a given state: the init-worker effect fires
only while there is no worker; port messages and a routed `pong` (hence
`probeResolved`) require the worker; an interval tick requires a live
interval. -/
def hookEnabled (s : Hook) : HookEv → Bool
  | .workerSet => !s.worker
  | .setToken _ => true
  | .workerMsg _ => s.worker
  | .probeResolved => s.worker
  | .probeTimedOut => true
  | .timerTick => !s.timers.isEmpty

/-- The hook's state right after mount, before any event: no worker, no
readiness, no status, no timer, nothing posted, no callback invoked.  The
access token prop may already be present. -/
def hookInit (tk : Option String) : Hook :=
  { worker := false, token := tk, ready := false, st := none,
    timers := [], timerRefLive := false, posted := [], calls := [] }

def hookRun (s : Hook) (tr : List HookEv) : Hook :=
  tr.foldl hookStep s

def hookTraceOK : Hook → List HookEv → Bool
  | _, [] => true
  | s, e :: tr => hookEnabled s e && hookTraceOK (hookStep s e) tr

/-- A state is reachable when some enabled trace from some mount state
produces it. -/
def ReachableH (s : Hook) : Prop :=
  ∃ tk tr, hookTraceOK (hookInit tk) tr = true ∧ s = hookRun (hookInit tk) tr

/-- The safety invariant maintained by the hook: the `timerRef` handle is
live exactly when a live interval exists, at most one interval is ever live,
an interval is live exactly when disconnected with a token, a worker and
readiness, every live interval carries the current token and the 30000 ms
period, and readiness implies worker presence. -/
def hookInv (s : Hook) : Prop :=
  (s.timerRefLive = true ↔ s.timers ≠ [])
  ∧ s.timers.length ≤ 1
  ∧ (s.timers ≠ [] ↔
      (discB s.st = true ∧ s.token.isSome = true ∧ s.worker = true ∧ s.ready = true))
  ∧ (∀ td ∈ s.timers, s.token = some td.token ∧ td.intervalMs = 30000)
  ∧ (s.ready = true → s.worker = true)
/-- The timeout ceiling of the liveness probe (line 96). -/
def probeTimeoutMs : Nat := 1000

/-- One liveness probe created by an invocation of `handleVisibilityChange`
(lines 93-106): its latch generation, creation time, whether its latch has
settled (`some true` resolved, `some false` rejected), whether the
`setTimeout` created alongside it was cleared by its own then-handler
(line 99), and whether that timeout already fired. -/
structure Probe where
  gen : Nat
  createdAt : Nat
  settled : Option Bool
  timeoutCleared : Bool
  timeoutFired : Bool
deriving DecidableEq

/-- State of the probe subsystem.  `probes` lists the probes newest first, so
the head is the latch currently held in `deferredRef.current`. -/
structure ProbeSys where
  worker : Bool
  now : Nat
  nextGen : Nat
  probes : List Probe
  ready : Bool
  st : Option SignalState
  sent : List OutMsg
deriving DecidableEq

/-- Events of the probe subsystem: a visibility change at time `t`, a `pong`
routed to `deferredRef.current.resolve()` (line 69), and the firing of the
`setTimeout` created by the invocation of generation `g` — whose callback is
`() => deferredRef.current.reject()` (line 96), reading the ref at fire
time. -/
inductive ProbeEv where
  | visibility (t : Nat)
  | pong (t : Nat)
  | timeoutFire (g : Nat) (t : Nat)
deriving DecidableEq

/-- A probe subsystem with no worker attached yet and the initial deferred
of `useRef(new Deferred())` (line 36), which has no handlers: it is outside
`probes` because settling it can affect nothing. -/
def probeInit (worker : Bool) : ProbeSys :=
  { worker := worker, now := 0, nextGen := 0, probes := [], ready := false,
    st := none, sent := [] }

/-- One step of the probe subsystem.

`visibility t`: replace `deferredRef.current` by a fresh latch, post `ping`
through the optional-chained worker, and arm a 1000 ms timeout whose callback
rejects whatever `deferredRef.current` holds when it fires.

`pong t`: `deferredRef.current.resolve()` — the newest latch settles if still
pending; its then-handler clears the timeout armed by the same invocation and
marks the transport ready.

`timeoutFire g t`: the timeout armed by invocation `g` fires (only if never
cleared, never fired, and exactly at its deadline); its callback rejects
`deferredRef.current`, i.e. the newest latch: if that latch is still pending
it settles rejected and its catch-handler marks the transport not ready and
forces status `closed` with the fixed message. -/
def probeStep (s : ProbeSys) (e : ProbeEv) : ProbeSys :=
  match e with
  | .visibility t =>
      { s with now := t, nextGen := s.nextGen + 1,
               probes := ⟨s.nextGen, t, none, false, false⟩ :: s.probes,
               sent := s.sent ++ pingPost s.worker }
  | .pong t =>
      match s.probes with
      | [] => { s with now := t }
      | p :: rest =>
          if p.settled = none then
            { s with now := t, ready := true,
                     probes := { p with settled := some true,
                                        timeoutCleared := true } :: rest }
          else { s with now := t }
  | .timeoutFire g t =>
      match s.probes.find? (fun p => decide (p.gen = g)) with
      | none => { s with now := t }
      | some pg =>
          if pg.timeoutFired = true ∨ pg.timeoutCleared = true
              ∨ pg.createdAt + probeTimeoutMs ≠ t then
            { s with now := t }
          else
            match s.probes.map
                (fun p => if p.gen = g then { p with timeoutFired := true } else p) with
            | [] => { s with now := t, probes := [] }
            | pl :: rest =>
                if pl.settled = none then
                  { s with now := t, ready := false,
                           st := some ⟨.closed, some "connection to shared worker lost"⟩,
                           probes := { pl with settled := some false } :: rest }
                else { s with now := t, probes := pl :: rest }

/-- A timeout is overdue at time `t` when it was armed, never cleared, never
fired, and its deadline lies strictly before `t`. -/
def probeDue (s : ProbeSys) (t : Nat) : Bool :=
  s.probes.any fun p =>
    !p.timeoutFired && !p.timeoutCleared && decide (p.createdAt + probeTimeoutMs < t)

/-- Event validity: time never goes backwards, no armed timeout is allowed
to stay pending past its deadline (timers fire on schedule), and a
`timeoutFire` names an armed, uncleared, unfired timeout exactly at its
deadline. -/
def probeEnabled (s : ProbeSys) : ProbeEv → Bool
  | .visibility t => decide (s.now ≤ t) && !probeDue s t
  | .pong t => decide (s.now ≤ t) && !probeDue s t
  | .timeoutFire g t =>
      decide (s.now ≤ t) && !probeDue s t &&
        (match s.probes.find? (fun p => decide (p.gen = g)) with
          | some p =>
              !p.timeoutFired && !p.timeoutCleared
                && decide (p.createdAt + probeTimeoutMs = t)
          | none => false)

def probeRun (s : ProbeSys) (tr : List ProbeEv) : ProbeSys :=
  tr.foldl probeStep s

def probeTraceOK : ProbeSys → List ProbeEv → Bool
  | _, [] => true
  | s, e :: tr => probeEnabled s e && probeTraceOK (probeStep s e) tr

theorem onMessageState_eq_specStatusTable (s : Option SignalState) (m : WorkerMsg) :
    onMessageState s m = specStatusTable s m := by
  cases m <;>
    first
      | rfl
      | (rcases s with _ | ⟨st, msg⟩
         · rfl
         · cases st <;> rfl)

theorem foldl_onMessageState_eq_spec (l : List WorkerMsg) (s : Option SignalState) :
    List.foldl onMessageState s l = List.foldl specStatusTable s l := by
  induction l generalizing s with
  | nil => rfl
  | cons m t ih => simp [List.foldl, onMessageState_eq_specStatusTable, ih]

theorem hookRun_workerMsgs_st (h : Hook) (l : List WorkerMsg) :
    (hookRun h (l.map HookEv.workerMsg)).st = List.foldl onMessageState h.st l := by
  induction l generalizing h with
  | nil => rfl
  | cons m t ih =>
      have h1 : hookRun h ((m :: t).map HookEv.workerMsg) =
          hookRun (hookStep h (.workerMsg m)) (t.map HookEv.workerMsg) := rfl
      rw [h1, ih]
      rfl

/-- Claim C1: the session status computed by the worker message handler over
any finite sequence of inbound messages — also when those messages drive the
full hook model in delivery order — equals the left fold of the spec
section 4.2 transition table over that sequence, and `connection:ready`
yields `reconnected` exactly when the previous status is `closed` or `error`
(otherwise, including from no status, it yields `connected`). -/
theorem c1_handler_folds_spec_table (l : List WorkerMsg) (s : Option SignalState)
    (hk : Hook) (mo : Option String) :
    List.foldl onMessageState s l = List.foldl specStatusTable s l
    ∧ (hookRun hk (l.map HookEv.workerMsg)).st = List.foldl specStatusTable hk.st l
    ∧ onMessageState (some ⟨.closed, mo⟩) .connectionReady = some ⟨.reconnected, none⟩
    ∧ onMessageState (some ⟨.error, mo⟩) .connectionReady = some ⟨.reconnected, none⟩
    ∧ onMessageState none .connectionReady = some ⟨.connected, none⟩
    ∧ onMessageState (some ⟨.connected, mo⟩) .connectionReady = some ⟨.connected, none⟩
    ∧ onMessageState (some ⟨.reconnected, mo⟩) .connectionReady = some ⟨.connected, none⟩
    ∧ onMessageState (some ⟨.reconnecting, mo⟩) .connectionReady = some ⟨.connected, none⟩ :=
  ⟨foldl_onMessageState_eq_spec l s,
    (hookRun_workerMsgs_st hk l).trans (foldl_onMessageState_eq_spec l hk.st),
    rfl, rfl, rfl, rfl, rfl, rfl⟩


theorem hookStep_worker (s : Hook) (e : HookEv) :
    (hookStep s e).worker = coreWorker s e := rfl

theorem hookStep_token (s : Hook) (e : HookEv) :
    (hookStep s e).token = coreToken s e := rfl

theorem hookStep_ready (s : Hook) (e : HookEv) :
    (hookStep s e).ready = coreReady s e := rfl

theorem hookStep_st (s : Hook) (e : HookEv) :
    (hookStep s e).st = coreSt s e := rfl

theorem hookStep_calls (s : Hook) (e : HookEv) :
    (hookStep s e).calls =
      if setsState e then s.calls ++ statusCalls (coreSt s e) else s.calls := rfl

theorem hookStep_timers_pair (s : Hook) (e : HookEv) :
    ((hookStep s e).timers, (hookStep s e).timerRefLive) =
      if discB (coreSt s e) ≠ discB s.st ∨ coreToken s e ≠ s.token
          ∨ coreWorker s e ≠ s.worker ∨ coreReady s e ≠ s.ready then
        recEffect s.timers s.timerRefLive (discB (coreSt s e)) (coreToken s e)
          (coreWorker s e) (coreReady s e)
      else (s.timers, s.timerRefLive) := rfl

theorem hookInv_init (tk : Option String) : hookInv (hookInit tk) := by
  refine ⟨by simp [hookInit], by simp [hookInit], by simp [hookInit], ?_, by simp [hookInit]⟩
  intro td h
  simp [hookInit] at h

theorem cleanupTail_nil (timers : List TimerData) (refLive : Bool)
    (hA : refLive = true ↔ timers ≠ []) (hB : timers.length ≤ 1) :
    (if refLive then timers.tail else timers) = [] := by
  cases refLive with
  | false =>
      simp only [if_neg Bool.false_ne_true, Bool.false_eq_true, false_iff, not_not] at hA ⊢
      exact hA
  | true =>
      have hne : timers ≠ [] := hA.mp rfl
      match timers, hne with
      | a :: l, _ =>
          simp only [if_pos rfl, List.tail_cons]
          simpa using hB

theorem coreReady_worker (s : Hook) (e : HookEv)
    (hen : hookEnabled s e = true) (hE : s.ready = true → s.worker = true) :
    coreReady s e = true → coreWorker s e = true := by
  cases e <;> simp_all [coreReady, coreWorker, hookEnabled]

theorem hookInv_step (s : Hook) (e : HookEv) (hinv : hookInv s)
    (hen : hookEnabled s e = true) : hookInv (hookStep s e) := by
  obtain ⟨hA, hB, hC, hD, hE⟩ := hinv
  have hE' := coreReady_worker s e hen hE
  have hpair := hookStep_timers_pair s e
  have hnil := cleanupTail_nil s.timers s.timerRefLive hA hB
  by_cases hch : discB (coreSt s e) ≠ discB s.st ∨ coreToken s e ≠ s.token
      ∨ coreWorker s e ≠ s.worker ∨ coreReady s e ≠ s.ready
  · rw [if_pos hch] at hpair
    by_cases hcond : discB (coreSt s e) = true ∧ coreWorker s e = true
        ∧ coreReady s e = true
    · rcases htk : coreToken s e with _ | tk
      · have hpr : ((hookStep s e).timers, (hookStep s e).timerRefLive) = ([], false) := by
          rw [hpair]; simp [recEffect, htk, hnil, hcond]
        have h1 : (hookStep s e).timers = [] := congrArg Prod.fst hpr
        have h2 : (hookStep s e).timerRefLive = false := congrArg Prod.snd hpr
        refine ⟨?_, ?_, ?_, ?_, hE'⟩ <;>
          simp [hookStep_worker, hookStep_token, hookStep_ready, hookStep_st,
            h1, h2, htk]
      · have : ((hookStep s e).timers, (hookStep s e).timerRefLive) =
            ([⟨tk, 30000⟩], true) := by
          rw [hpair]; simp [recEffect, htk, hnil, hcond]
        have h1 : (hookStep s e).timers = [⟨tk, 30000⟩] := congrArg Prod.fst this
        have h2 : (hookStep s e).timerRefLive = true := congrArg Prod.snd this
        refine ⟨?_, ?_, ?_, ?_, hE'⟩ <;>
          simp [hookStep_worker, hookStep_token, hookStep_ready, hookStep_st,
            h1, h2, htk, hcond]
    · have : ((hookStep s e).timers, (hookStep s e).timerRefLive) = ([], false) := by
        rw [hpair]
        rcases htk : coreToken s e with _ | tk <;> simp [recEffect, htk, hnil, hcond]
      have h1 : (hookStep s e).timers = [] := congrArg Prod.fst this
      have h2 : (hookStep s e).timerRefLive = false := congrArg Prod.snd this
      refine ⟨?_, ?_, ?_, ?_, hE'⟩ <;>
        simp only [hookStep_worker, hookStep_token, hookStep_ready, hookStep_st,
          h1, h2] <;>
        simp_all
  · rw [if_neg hch] at hpair
    have h1 : (hookStep s e).timers = s.timers := congrArg Prod.fst hpair
    have h2 : (hookStep s e).timerRefLive = s.timerRefLive := congrArg Prod.snd hpair
    push_neg at hch
    obtain ⟨hd, ht, hw, hr⟩ := hch
    refine ⟨?_, ?_, ?_, ?_, hE'⟩ <;>
      simp only [hookStep_worker, hookStep_token, hookStep_ready, hookStep_st,
        h1, h2, hd, ht, hw, hr] <;> assumption

theorem hookInv_run (s : Hook) (tr : List HookEv) (hinv : hookInv s)
    (hok : hookTraceOK s tr = true) : hookInv (hookRun s tr) := by
  induction tr generalizing s with
  | nil => exact hinv
  | cons e t ih =>
      simp only [hookTraceOK, Bool.and_eq_true] at hok
      exact ih (hookStep s e) (hookInv_step s e hinv hok.1) hok.2

theorem hookInv_reachable (s : Hook) (h : ReachableH s) : hookInv s := by
  obtain ⟨tk, tr, hok, rfl⟩ := h
  exact hookInv_run (hookInit tk) tr (hookInv_init tk) hok


theorem onMessageState_of_not_sets (s : Option SignalState) (m : WorkerMsg)
    (h : msgSetsState m = false) : onMessageState s m = s := by
  cases m <;> first | rfl | simp [msgSetsState] at h

theorem hookRun_no_status (s : Hook) (tr : List HookEv)
    (h : ∀ e ∈ tr, setsState e = false) :
    (hookRun s tr).calls = s.calls ∧ (hookRun s tr).st = s.st := by
  induction tr generalizing s with
  | nil => exact ⟨rfl, rfl⟩
  | cons e t ih =>
      have he : setsState e = false := h e (List.mem_cons_self e t)
      have ht : ∀ e' ∈ t, setsState e' = false :=
        fun e' h' => h e' (List.mem_cons_of_mem e h')
      have hcalls : (hookStep s e).calls = s.calls := by
        rw [hookStep_calls]; simp [he]
      have hst : (hookStep s e).st = s.st := by
        rw [hookStep_st]
        cases e with
        | workerMsg m =>
            exact onMessageState_of_not_sets s.st m (by simpa [setsState] using he)
        | probeTimedOut => simp [setsState] at he
        | _ => rfl
      have := ih (hookStep s e) ht
      exact ⟨hcalls ▸ this.1, hst ▸ this.2⟩

/-- Claim C4: whenever an event delivers a new session status, the status
effect invokes `onStatusChange` with the full status message first and then
exactly the one status-specific callback matching the new status, with
`closed`/`error` receiving the carried message. -/
theorem c4_status_effect_callbacks (s : Hook) (e : HookEv) (st : SignalState)
    (mo : Option String) (hset : setsState e = true) :
    (hookStep s e).calls = s.calls ++ statusCalls (coreSt s e)
    ∧ (statusCalls (some st)).length = 2
    ∧ (statusCalls (some st)).head? = some (Cb.statusChange st)
    ∧ statusCalls (some ⟨.connected, mo⟩) =
        [Cb.statusChange ⟨.connected, mo⟩, Cb.connected]
    ∧ statusCalls (some ⟨.reconnected, mo⟩) =
        [Cb.statusChange ⟨.reconnected, mo⟩, Cb.reconnected]
    ∧ statusCalls (some ⟨.reconnecting, mo⟩) =
        [Cb.statusChange ⟨.reconnecting, mo⟩, Cb.reconnecting]
    ∧ statusCalls (some ⟨.closed, mo⟩) =
        [Cb.statusChange ⟨.closed, mo⟩, Cb.closed mo]
    ∧ statusCalls (some ⟨.error, mo⟩) =
        [Cb.statusChange ⟨.error, mo⟩, Cb.error mo] := by
  refine ⟨?_, ?_, rfl, rfl, rfl, rfl, rfl, rfl⟩
  · rw [hookStep_calls]; simp [hset]
  · obtain ⟨stat, msg⟩ := st
    cases stat <;> rfl

/-- Witness for C4 at a concrete `connection:closed{message:"x"}` delivery. -/
theorem c4_witness :
    (hookStep (hookInit none)
        (HookEv.workerMsg (WorkerMsg.connectionClosed (some "x")))).calls =
      (hookInit none).calls ++
        statusCalls (coreSt (hookInit none)
          (HookEv.workerMsg (WorkerMsg.connectionClosed (some "x")))) :=
  (c4_status_effect_callbacks (hookInit none)
    (HookEv.workerMsg (WorkerMsg.connectionClosed (some "x")))
    ⟨.closed, none⟩ none rfl).1

/-- Claim C10: the status value "unset" is never delivered: before any event
that produces a concrete status, no callback at all is invoked and the state
is still `none`; the status effect delivers nothing for `none`; and every
deliverable status is one of the five concrete values. -/
theorem c10_unset_never_delivered (tk : Option String) (tr : List HookEv)
    (st : SignalStatus) (h : ∀ e ∈ tr, setsState e = false) :
    (hookRun (hookInit tk) tr).calls = [] ∧ (hookRun (hookInit tk) tr).st = none
    ∧ statusCalls none = []
    ∧ (st = .connected ∨ st = .closed ∨ st = .error ∨ st = .reconnected
        ∨ st = .reconnecting) := by
  have h2 := hookRun_no_status (hookInit tk) tr h
  exact ⟨h2.1, h2.2, rfl, by cases st <;> simp⟩

/-- Witness for C10: a worker-creation plus `worker:ready` plus `pong` trace
delivers no callback and leaves the status unset. -/
theorem c10_witness :
    (hookRun (hookInit (some "tk"))
        [HookEv.workerSet, HookEv.workerMsg .workerReady,
          HookEv.workerMsg .pong]).calls = [] :=
  (c10_unset_never_delivered (some "tk")
    [HookEv.workerSet, HookEv.workerMsg .workerReady, HookEv.workerMsg .pong]
    .connected (by decide)).1

/-- Claim C9: `send(target, args)` posts exactly `{type:'send', target,
args}` when the transport is present and silently posts nothing when it is
absent; likewise `on`'s registration message and the probe's ping post
nothing without a transport. -/
theorem c9_send_posts_exact_or_noop (t a : String) (em : Emitter) (cb : Nat) :
    sendMsg true t a = [OutMsg.send t a]
    ∧ sendMsg false t a = []
    ∧ (facadeOn false em t cb).2 = []
    ∧ (facadeOn true em t cb).2 = [OutMsg.eventRegister t]
    ∧ pingPost false = []
    ∧ pingPost true = [OutMsg.ping] :=
  ⟨rfl, rfl, rfl, rfl, rfl, rfl⟩

/-- Claim C7: `on(target, cb)` then `off(target, cb)` leaves zero
invocations of `cb` for later `event:received{target}` dispatches, while a
second callback separately registered on the same target still receives
them; and `off` posts nothing to the transport. -/
theorem c7_on_off_local_only (w : Bool) (em : Emitter) (t p : String)
    (cb cb2 : Nat) (hne : cb2 ≠ cb) :
    cb ∉ dispatch (facadeOff (facadeOn w (facadeOn w em t cb).1 t cb2).1 t cb).1
        (.eventReceived t p)
    ∧ cb2 ∈ dispatch (facadeOff (facadeOn w (facadeOn w em t cb).1 t cb2).1 t cb).1
        (.eventReceived t p)
    ∧ (facadeOff (facadeOn w (facadeOn w em t cb).1 t cb2).1 t cb).2 = [] := by
  refine ⟨?_, ?_, rfl⟩
  · simp only [dispatch, facadeOn, facadeOff, Emitter.on, Emitter.off, Emitter.emit,
      List.mem_map, List.mem_filter, decide_eq_true_eq, not_exists]
    rintro ⟨t', c⟩ ⟨⟨⟨hmem, hne2⟩, hfst⟩, hsnd⟩
    exact hne2 (by simp_all)
  · simp only [dispatch, facadeOn, facadeOff, Emitter.on, Emitter.off, Emitter.emit,
      List.mem_map, List.mem_filter, decide_eq_true_eq]
    refine ⟨(t, cb2), ⟨⟨?_, ?_⟩, rfl⟩, rfl⟩
    · simp
    · simp [hne]

/-- Witness for C7 with two concrete callbacks on the same target. -/
theorem c7_witness :
    (0 : Nat) ∉ dispatch
        (facadeOff (facadeOn true (facadeOn true ⟨[]⟩ "chat" 0).1 "chat" 1).1 "chat" 0).1
        (.eventReceived "chat" "payload")
    ∧ (1 : Nat) ∈ dispatch
        (facadeOff (facadeOn true (facadeOn true ⟨[]⟩ "chat" 0).1 "chat" 1).1 "chat" 0).1
        (.eventReceived "chat" "payload") :=
  ⟨(c7_on_off_local_only true ⟨[]⟩ "chat" "payload" 0 1 (by decide)).1,
    (c7_on_off_local_only true ⟨[]⟩ "chat" "payload" 0 1 (by decide)).2.1⟩

theorem probeDue_false_of_idle (s : ProbeSys) (t : Nat)
    (hidle : s.probes.all (fun p => p.timeoutFired || p.timeoutCleared) = true) :
    probeDue s t = false := by
  rw [probeDue, List.any_eq_false]
  intro p hp
  have h := List.all_eq_true.mp hidle p hp
  cases hf : p.timeoutFired <;> cases hc : p.timeoutCleared <;> simp_all

/-- Claim C2: a probe whose `pong` arrives before its 1000 ms deadline
leaves the session status unchanged and only marks the transport live, while
a probe whose timeout fires marks the transport not ready and forces status
`closed` with the exact message "connection to shared worker lost",
regardless of the previous status.  The hypotheses say the prior probes are
quiescent (no other timeout in flight) and the events are well-timed. -/
theorem c2_probe_pong_vs_timeout (s : ProbeSys) (t0 t1 : Nat)
    (hidle : s.probes.all (fun p => p.timeoutFired || p.timeoutCleared) = true)
    (h0 : s.now ≤ t0) (h1 : t0 ≤ t1) (h2 : t1 < t0 + probeTimeoutMs) :
    probeTraceOK s [.visibility t0, .pong t1] = true
    ∧ (probeRun s [.visibility t0, .pong t1]).st = s.st
    ∧ (probeRun s [.visibility t0, .pong t1]).ready = true
    ∧ probeTraceOK s [.visibility t0, .timeoutFire s.nextGen (t0 + probeTimeoutMs)] = true
    ∧ (probeRun s [.visibility t0, .timeoutFire s.nextGen (t0 + probeTimeoutMs)]).st
        = some ⟨.closed, some "connection to shared worker lost"⟩
    ∧ (probeRun s [.visibility t0,
        .timeoutFire s.nextGen (t0 + probeTimeoutMs)]).ready = false := by
  have hDue0 : probeDue s t0 = false := probeDue_false_of_idle s t0 hidle
  have hs1 : probeStep s (.visibility t0) =
      { s with now := t0, nextGen := s.nextGen + 1,
               probes := ⟨s.nextGen, t0, none, false, false⟩ :: s.probes,
               sent := s.sent ++ pingPost s.worker } := rfl
  have hDueRest : ∀ t' : Nat, ∀ p ∈ s.probes,
      ¬(!p.timeoutFired && !p.timeoutCleared
          && decide (p.createdAt + probeTimeoutMs < t')) = true := by
    intro t' p hp
    have h := List.all_eq_true.mp hidle p hp
    cases hf : p.timeoutFired <;> cases hc : p.timeoutCleared <;> simp_all
  have hDue1p : probeDue (probeStep s (.visibility t0)) t1 = false := by
    rw [hs1, probeDue, List.any_eq_false]
    intro p hp
    rcases List.mem_cons.mp hp with hfst | hrest
    · subst hfst
      have hnl : ¬(t0 + probeTimeoutMs < t1) := by omega
      simp [hnl]
    · exact hDueRest t1 p hrest
  have hDue1t : probeDue (probeStep s (.visibility t0)) (t0 + probeTimeoutMs) = false := by
    rw [hs1, probeDue, List.any_eq_false]
    intro p hp
    rcases List.mem_cons.mp hp with hfst | hrest
    · subst hfst
      have hnl : ¬(t0 + probeTimeoutMs < t0 + probeTimeoutMs) := by omega
      simp [hnl]
    · exact hDueRest (t0 + probeTimeoutMs) p hrest
  rw [hs1] at hDue1p hDue1t
  have hok1 : probeTraceOK s [.visibility t0, .pong t1] = true := by
    simp [probeTraceOK, probeEnabled, hDue0, h0, hs1, hDue1p, h1]
  have hrun1 : probeRun s [.visibility t0, .pong t1] =
      { s with now := t1, nextGen := s.nextGen + 1, ready := true,
               probes := ⟨s.nextGen, t0, some true, true, false⟩ :: s.probes,
               sent := s.sent ++ pingPost s.worker } := rfl
  have hok2 : probeTraceOK s
      [.visibility t0, .timeoutFire s.nextGen (t0 + probeTimeoutMs)] = true := by
    simp [probeTraceOK, probeEnabled, hDue0, h0, hs1, hDue1t, List.find?]
  have hrun2 : probeRun s [.visibility t0, .timeoutFire s.nextGen (t0 + probeTimeoutMs)] =
      probeStep (probeStep s (.visibility t0))
        (.timeoutFire s.nextGen (t0 + probeTimeoutMs)) := rfl
  have hstep2 : probeStep (probeStep s (.visibility t0))
      (.timeoutFire s.nextGen (t0 + probeTimeoutMs)) =
      { s with now := t0 + probeTimeoutMs, nextGen := s.nextGen + 1, ready := false,
               st := some ⟨.closed, some "connection to shared worker lost"⟩,
               probes := ⟨s.nextGen, t0, some false, false, true⟩ ::
                 (s.probes.map (fun p =>
                   if p.gen = s.nextGen then { p with timeoutFired := true } else p)),
               sent := s.sent ++ pingPost s.worker } := by
    rw [hs1]
    simp [probeStep, List.find?]
  exact ⟨hok1, by rw [hrun1], by rw [hrun1], hok2, by rw [hrun2, hstep2],
    by rw [hrun2, hstep2]⟩

/-- Witness for C2 at a fresh probe system with a pong after 500 ms. -/
theorem c2_witness :
    probeTraceOK (probeInit true) [ProbeEv.visibility 0, ProbeEv.pong 500] = true
    ∧ (probeRun (probeInit true) [ProbeEv.visibility 0, ProbeEv.pong 500]).ready = true
    ∧ (probeRun (probeInit true) [ProbeEv.visibility 0, ProbeEv.pong 500]).st = none :=
  ⟨(c2_probe_pong_vs_timeout (probeInit true) 0 500 (by decide) (by decide)
      (by decide) (by decide)).1,
    (c2_probe_pong_vs_timeout (probeInit true) 0 500 (by decide) (by decide)
      (by decide) (by decide)).2.2.1,
    (c2_probe_pong_vs_timeout (probeInit true) 0 500 (by decide) (by decide)
      (by decide) (by decide)).2.1⟩

/-- Claim C3 fails on the code: with overlapping probes, the first probe's
timeout callback reads `deferredRef.current` at fire time (line 96) and so
rejects the NEWER latch.  Trace: probes at 0 ms and 500 ms; the first
probe's timeout fires at 1000 ms and rejects the second probe's latch;
the `pong` at 1100 ms — well inside the second probe's 1500 ms deadline —
arrives too late, and the status stays forced to `closed`. -/
theorem c3_stale_timeout_rejects_newer_latch :
    probeTraceOK (probeInit true)
        [ProbeEv.visibility 0, ProbeEv.visibility 500,
          ProbeEv.timeoutFire 0 1000, ProbeEv.pong 1100] = true
    ∧ (1100 : Nat) < 500 + probeTimeoutMs
    ∧ (probeRun (probeInit true)
        [ProbeEv.visibility 0, ProbeEv.visibility 500,
          ProbeEv.timeoutFire 0 1000, ProbeEv.pong 1100]).st
        = some ⟨.closed, some "connection to shared worker lost"⟩
    ∧ (probeRun (probeInit true)
        [ProbeEv.visibility 0, ProbeEv.visibility 500,
          ProbeEv.timeoutFire 0 1000, ProbeEv.pong 1100]).ready = false := by
  refine ⟨by decide, by decide, by decide, by decide⟩

/-- Claim C5: in every reachable state, whenever the status is in
{unset, closed, error} with a credential and a ready transport, exactly one
live 30000 ms interval exists and its tick re-posts
`{type:'connection:init', token}` with the current credential; the moment
the status leaves that set the interval is gone and ticks are impossible;
and at most one interval is ever live. -/
theorem c5_reconnect_polling (s : Hook) (h : ReachableH s) :
    (discB s.st = true ∧ s.token.isSome = true ∧ s.ready = true →
      ∃ td, s.timers = [td] ∧ td.intervalMs = 30000 ∧ s.token = some td.token
        ∧ (hookStep s .timerTick).posted = s.posted ++ [OutMsg.connInit td.token])
    ∧ (discB s.st = false → s.timers = [] ∧ hookEnabled s .timerTick = false)
    ∧ s.timers.length ≤ 1 := by
  obtain ⟨hA, hB, hC, hD, hE⟩ := hookInv_reachable s h
  refine ⟨?_, ?_, hB⟩
  · rintro ⟨hd, htk, hr⟩
    have hw : s.worker = true := hE hr
    have hne : s.timers ≠ [] := hC.mpr ⟨hd, htk, hw, hr⟩
    match htm : s.timers, hne with
    | [td], _ =>
        have hDtd := hD td (htm ▸ List.mem_singleton.mpr rfl)
        refine ⟨td, rfl, hDtd.2, hDtd.1, ?_⟩
        show ((match (HookEv.timerTick : HookEv) with
          | .timerTick => s.posted ++
              (match s.timers with
                | td :: _ => [OutMsg.connInit td.token]
                | [] => [])
          | _ => s.posted) ++
            initEffectPost s.worker s.token s.ready (coreWorker s .timerTick)
              (coreToken s .timerTick) (coreReady s .timerTick)) = _
        simp [htm, initEffectPost, coreWorker, coreToken, coreReady]
    | td :: td2 :: rest, _ =>
        exact absurd (htm ▸ hB) (by simp)
  · intro hdf
    have hnil : s.timers = [] := by
      by_contra hne
      have := hC.mp hne
      rw [hdf] at this
      exact absurd this.1 (by simp)
    exact ⟨hnil, by simp [hookEnabled, hnil]⟩

/-- Witness for C5: after worker creation and `worker:ready` with a token,
the status is still unset, so the reconnect interval is live and ticking
re-posts the init message. -/
theorem c5_witness :
    ∃ td,
      (hookRun (hookInit (some "tk"))
        [HookEv.workerSet, HookEv.workerMsg .workerReady]).timers = [td]
      ∧ td.intervalMs = 30000
      ∧ (hookRun (hookInit (some "tk"))
          [HookEv.workerSet, HookEv.workerMsg .workerReady]).token = some td.token
      ∧ (hookStep (hookRun (hookInit (some "tk"))
            [HookEv.workerSet, HookEv.workerMsg .workerReady]) .timerTick).posted =
          (hookRun (hookInit (some "tk"))
            [HookEv.workerSet, HookEv.workerMsg .workerReady]).posted ++
            [OutMsg.connInit td.token] :=
  (c5_reconnect_polling
    (hookRun (hookInit (some "tk")) [HookEv.workerSet, HookEv.workerMsg .workerReady])
    ⟨some "tk", [HookEv.workerSet, HookEv.workerMsg .workerReady], by decide, rfl⟩).1
    (by decide)

/-- Claim C6 as stated is refuted by `c6_counterexample` below; the amended
claim: in every reachable state the timer runs exactly when the status is
disconnected AND a credential is present AND the worker exists AND the
transport is marked ready — so it never runs while connected, but after a
liveness-probe timeout (which clears readiness) it does not run either,
until readiness is restored. -/
theorem c6_amended_timer_sync (s : Hook) (h : ReachableH s) :
    (s.timers ≠ [] ↔ (discB s.st = true ∧ s.token.isSome = true
        ∧ s.worker = true ∧ s.ready = true))
    ∧ (discB s.st = false → s.timers = [] ∧ hookEnabled s .timerTick = false) := by
  obtain ⟨hA, hB, hC, hD, hE⟩ := hookInv_reachable s h
  refine ⟨hC, fun hdf => ?_⟩
  have hnil : s.timers = [] := by
    by_contra hne
    have := hC.mp hne
    rw [hdf] at this
    exact absurd this.1 (by simp)
  exact ⟨hnil, by simp [hookEnabled, hnil]⟩

/-- Counterexample to C6 as stated: a reachable state — reached exactly by a
liveness-probe timeout from `connected` — that is disconnected with a
credential present, yet has no live reconnect interval and cannot tick. -/
theorem c6_counterexample :
    hookTraceOK (hookInit (some "tk"))
      [HookEv.workerSet, HookEv.workerMsg .workerReady,
        HookEv.workerMsg .connectionReady, HookEv.probeTimedOut] = true
    ∧ discB (hookRun (hookInit (some "tk"))
        [HookEv.workerSet, HookEv.workerMsg .workerReady,
          HookEv.workerMsg .connectionReady, HookEv.probeTimedOut]).st = true
    ∧ (hookRun (hookInit (some "tk"))
        [HookEv.workerSet, HookEv.workerMsg .workerReady,
          HookEv.workerMsg .connectionReady, HookEv.probeTimedOut]).token.isSome = true
    ∧ (hookRun (hookInit (some "tk"))
        [HookEv.workerSet, HookEv.workerMsg .workerReady,
          HookEv.workerMsg .connectionReady, HookEv.probeTimedOut]).timers = []
    ∧ hookEnabled (hookRun (hookInit (some "tk"))
        [HookEv.workerSet, HookEv.workerMsg .workerReady,
          HookEv.workerMsg .connectionReady, HookEv.probeTimedOut]) .timerTick
        = false := by
  refine ⟨by decide, by decide, by decide, by decide, by decide⟩

/-- Witness for the amended C6 at a connected reachable state: no timer. -/
theorem c6_witness :
    (hookRun (hookInit (some "tk"))
      [HookEv.workerSet, HookEv.workerMsg .workerReady,
        HookEv.workerMsg .connectionReady]).timers = [] :=
  ((c6_amended_timer_sync
      (hookRun (hookInit (some "tk"))
        [HookEv.workerSet, HookEv.workerMsg .workerReady,
          HookEv.workerMsg .connectionReady])
      ⟨some "tk",
        [HookEv.workerSet, HookEv.workerMsg .workerReady,
          HookEv.workerMsg .connectionReady], by decide, rfl⟩).2 (by decide)).1

/-- Claim C8: the `connection:init` message is posted exactly when the init
effect's dependencies changed with worker, readiness and a credential all
present; in particular a credential arriving (or changing) while the worker
is ready immediately posts `connection:init` carrying the new credential. -/
theorem c8_init_message_policy (s : Hook) (tk' : String)
    (hw : s.worker = true) (hr : s.ready = true) (ht : s.token ≠ some tk') :
    (hookStep s (.setToken (some tk'))).posted = s.posted ++ [OutMsg.connInit tk']
    ∧ (hookStep s (.setToken (some tk'))).token = some tk'
    ∧ (∀ (wp rp w r : Bool) (tp tkn : Option String),
        initEffectPost wp tp rp w tkn r ≠ [] ↔
          ((w ≠ wp ∨ tkn ≠ tp ∨ r ≠ rp) ∧ w = true ∧ r = true ∧ tkn ≠ none)) := by
  refine ⟨?_, rfl, ?_⟩
  · show (s.posted ++ initEffectPost s.worker s.token s.ready
        (coreWorker s (.setToken (some tk'))) (coreToken s (.setToken (some tk')))
        (coreReady s (.setToken (some tk')))) = _
    simp [initEffectPost, coreWorker, coreToken, coreReady, hw, hr, Ne.symm ht]
  · intro wp rp w r tp tkn
    unfold initEffectPost
    split
    · rename_i hcond
      rcases tkn with _ | tk
      · exact iff_of_false (by simp) (by simp)
      · exact iff_of_true (by simp)
          ⟨hcond.1, hcond.2.1, hcond.2.2, by simp⟩
    · rename_i hcond
      exact iff_of_false (by simp)
        (fun h => hcond ⟨h.1, h.2.1, h.2.2.1⟩)

/-- Witness for C8: a ready worker with no credential receives one; the init
message with the new credential is posted at once. -/
theorem c8_witness :
    (hookStep
        { worker := true, token := none, ready := true, st := none,
          timers := [], timerRefLive := false, posted := [], calls := [] }
        (HookEv.setToken (some "new"))).posted = [] ++ [OutMsg.connInit "new"] :=
  (c8_init_message_policy
    { worker := true, token := none, ready := true, st := none,
      timers := [], timerRefLive := false, posted := [], calls := [] }
    "new" rfl rfl (by decide)).1
